import Mathlib

/-!
Verification of the booking admission-control core of the Hanco rent-a-car
backend (src/backend/app/api/v1/bookings.py, src/backend/app/api/v1/vehicles.py,
src/backend/app/core/security.py), shallowly embedded in Lean.

Calendar dates are modelled as integer day numbers; dates stored in booking
documents are modelled by `DateVal`, which records which Python representation
the stored value has (ISO-8601 string, datetime.date, datetime.datetime, or
Firestore timestamp), since the three overlap call sites coerce these
representations differently.  Document-store reads and writes are modelled by
explicit state passing over `Store` plus an effect trace (`Eff`).
-/

namespace Hanco

/-- Booking status values used by the code
("pending", "confirmed", "active", "cancelled", "completed"). -/
inductive BStatus
  | pending
  | confirmed
  | activeB
  | cancelled
  | completed
deriving DecidableEq, Repr

/-- Payment status values ("unpaid", "paid", plus the further values that the
response shaping tolerates; only unpaid and paid are written by the core). -/
inductive PayStatus
  | unpaid
  | paid
  | refunded
  | failed
deriving DecidableEq, Repr

/-- Vehicle status values ("available", "rented", "maintenance", "inactive"). -/
inductive VStatus
  | available
  | rented
  | maintenance
  | inactive
deriving DecidableEq, Repr

/-- A stored start_date or end_date value, tagged with the Python representation
it has in the document store, carrying the calendar day it denotes:
an ISO-8601 date string, a plain datetime.date, a datetime.datetime, or a
Firestore timestamp (DatetimeWithNanoseconds, a datetime subclass). -/
inductive DateVal
  | iso (d : Int)
  | pydate (d : Int)
  | pydatetime (d : Int)
  | tstamp (d : Int)
deriving DecidableEq, Repr

/-- A booking document.  Fields not consulted by the admission-control core
(pickup and dropoff locations, created_at and updated_at timestamps) are
elided; user_id is the owner recorded at creation (bookings.py:291). -/
structure Booking where
  id : String
  userId : String
  vehicleId : String
  startD : DateVal
  endD : DateVal
  totalPrice : Int
  status : BStatus
  payment : PayStatus
deriving DecidableEq, Repr

/-- A vehicle document: id, status and base_daily_rate. -/
structure Vehicle where
  id : String
  status : VStatus
  baseDailyRate : Int
deriving DecidableEq, Repr

/-- The document store: the vehicles collection and the bookings collection. -/
structure Store where
  vehicles : List Vehicle
  bookings : List Booking
deriving DecidableEq, Repr

/-- An entry of the conflict list returned by the availability checks
(booking_id together with the normalized stored dates). -/
structure ConflictRef where
  bookingId : String
  startD : Int
  endD : Int
deriving DecidableEq, Repr

/-- Error outcomes of the endpoints: validation is HTTP 400, notFound is 404,
conflict (carrying the reported conflict count) is 409, forbidden is 403, and
internal is the blanket HTTP 500 produced when an uncaught Python exception
(such as a NameError or TypeError) reaches the outer exception handler. -/
inductive Err
  | validation
  | notFound
  | conflict (n : Nat)
  | forbidden
  | internal
deriving DecidableEq, Repr

/-- Effects on the document store, in the order the code performs them. -/
inductive Eff
  | readVehicle
  | readBookings
  | writeBooking
deriving DecidableEq, Repr

/-- The body of a booking-creation request (BookingCreate), with the requested
dates as day numbers; newId is the uuid4 generated at bookings.py:286. -/
structure Req where
  vehicleId : String
  startD : Int
  endD : Int
deriving DecidableEq, Repr

/-- An authenticated user as passed to security.py helpers: its uid and role. -/
structure User where
  uid : String
  role : String
deriving DecidableEq, Repr

/-- Statuses that block availability: bookings.py:146, 313 and vehicles.py:428
all filter on status in [pending, confirmed, active]. -/
def blocking : BStatus → Bool
  | .pending => true
  | .confirmed => true
  | .activeB => true
  | _ => false

/-- Firestore document lookup in the vehicles collection. -/
def findVehicle (st : Store) (vid : String) : Option Vehicle :=
  st.vehicles.find? (fun v => v.id = vid)

/-- Firestore document lookup in the bookings collection. -/
def findBooking (st : Store) (bid : String) : Option Booking :=
  st.bookings.find? (fun b => b.id = bid)

/-- Date coercion used by the pre-check (bookings.py:157-166): ISO strings are
parsed with datetime.fromisoformat().date(); values with a .date attribute
(datetime.datetime and Firestore timestamps) are truncated with .date(); a
plain datetime.date has no .date attribute and passes through unchanged.
Every stored representation yields a comparable date, so this coercion is
total. -/
def preNorm : DateVal → Int
  | .iso d => d
  | .pydate d => d
  | .pydatetime d => d
  | .tstamp d => d

/-- Date coercion used by the in-transaction re-check (bookings.py:319-320):
datetime.fromisoformat(doc_data[...]).date() accepts only strings, so any
non-string stored representation raises a TypeError (modelled as none). -/
def txnNorm : DateVal → Option Int
  | .iso d => some d
  | _ => none

/-- Date coercion used by the standalone availability query
(vehicles.py:439-443): only values with a .date attribute are converted; an
ISO string is left as a string, and the later date-versus-string comparison in
check_date_overlap raises a TypeError (modelled as none). -/
def vehNorm : DateVal → Option Int
  | .iso _ => none
  | .pydate d => some d
  | .pydatetime d => some d
  | .tstamp d => some d

/-- Overlap test of the pre-check (bookings.py:169):
start_date <= booking_end and end_date >= booking_start. -/
def preOverlap (s e bs be : Int) : Bool :=
  decide (s ≤ be) && decide (e ≥ bs)

/-- Overlap test of the standalone availability query (vehicles.py:72-74):
start1 <= end2 and end1 >= start2. -/
def check_date_overlap (s1 e1 s2 e2 : Int) : Bool :=
  decide (s1 ≤ e2) && decide (e1 ≥ s2)

/-- Overlap test of the in-transaction re-check (bookings.py:323):
not (booking.end_date <= doc_start or booking.start_date >= doc_end). -/
def txnOverlap (s e ds de : Int) : Bool :=
  !(decide (e ≤ ds) || decide (s ≥ de))

/-- Conflict accumulation loop of the pre-check (bookings.py:150-174): for each
booking of the vehicle whose status is blocking (the query filter at lines
145-146), coerce its stored dates and test the inclusive overlap. -/
def preScan : List Booking → String → Int → Int → List ConflictRef
  | [], _, _, _ => []
  | b :: rest, vid, s, e =>
    if b.vehicleId = vid ∧ blocking b.status = true then
      if preOverlap s e (preNorm b.startD) (preNorm b.endD) then
        ⟨b.id, preNorm b.startD, preNorm b.endD⟩ :: preScan rest vid s e
      else preScan rest vid s e
    else preScan rest vid s e

/-- Conflict accumulation loop of the in-transaction re-check
(bookings.py:316-324): same query filter, but dates are parsed with
fromisoformat only, and the strict overlap test is used; a booking whose
stored dates are not ISO strings makes the whole re-check raise (none). -/
def txnScan : List Booking → String → Int → Int → Option (List String)
  | [], _, _, _ => some []
  | b :: rest, vid, s, e =>
    if b.vehicleId = vid ∧ blocking b.status = true then
      match txnNorm b.startD, txnNorm b.endD with
      | some ds, some de =>
        match txnScan rest vid s e with
        | some ids => some (if txnOverlap s e ds de then b.id :: ids else ids)
        | none => none
      | _, _ => none
    else txnScan rest vid s e

/-- Conflict accumulation loop of the standalone availability query
(vehicles.py:432-452): same query filter, dates coerced only when they carry a
.date attribute.  The overlap call at line 446 evaluates the conjunction of
check_date_overlap lazily: the first comparison start1 <= end2 always runs
and raises when the stored end date is an unconverted ISO string; the second
comparison end1 >= start2 runs only when the first is true, so an unconverted
ISO start date raises only then and otherwise escapes unnoticed. -/
def vehScan : List Booking → String → Int → Int → Option (List ConflictRef)
  | [], _, _, _ => some []
  | b :: rest, vid, s, e =>
    if b.vehicleId = vid ∧ blocking b.status = true then
      match vehNorm b.endD with
      | some de =>
        if s ≤ de then
          match vehNorm b.startD with
          | some ds =>
            match vehScan rest vid s e with
            | some cs => some (if e ≥ ds then ⟨b.id, ds, de⟩ :: cs else cs)
            | none => none
          | none => none
        else vehScan rest vid s e
      | none => none
    else vehScan rest vid s e

/-- Availability helper of the booking endpoints
(bookings.py:121-185 check_vehicle_availability): 404 when the vehicle is
missing; (False, []) when its status is neither available nor rented;
otherwise the scan result, available iff no conflicts.  The second component
is the trace of document-store effects (this function only reads). -/
def check_vehicle_availability_b (st : Store) (vid : String) (s e : Int) :
    Except Err (Bool × List ConflictRef) × List Eff :=
  match findVehicle st vid with
  | none => (.error .notFound, [.readVehicle])
  | some v =>
    if v.status = .available ∨ v.status = .rented then
      let cs := preScan st.bookings vid s e
      (.ok (decide (cs.length = 0), cs), [.readVehicle, .readBookings])
    else (.ok (false, []), [.readVehicle])

/-- Printable vehicle status, for the reason string of vehicles.py:421. -/
def vstatusName : VStatus → String
  | .available => "available"
  | .rented => "rented"
  | .maintenance => "maintenance"
  | .inactive => "inactive"

/-- Response of the standalone availability endpoint (vehicles.py:458-465 and
418-423): availability flag, the reason string present only on the
vehicle-status rejection, and the conflict list. -/
structure AvailResponse where
  available : Bool
  reason : Option String
  conflicts : List ConflictRef
deriving DecidableEq, Repr

/-- Standalone availability endpoint (vehicles.py:376-474
check_vehicle_availability): date validation, vehicle lookup, status gate with
a distinct reason and empty conflict list, then the scan; a TypeError escaping
the scan is the blanket HTTP 500. -/
def check_vehicle_availability_v (st : Store) (today : Int) (vid : String)
    (s e : Int) : Except Err AvailResponse :=
  if e ≤ s then .error .validation
  else if s < today then .error .validation
  else
    match findVehicle st vid with
    | none => .error .notFound
    | some v =>
      if v.status = .available ∨ v.status = .rented then
        match vehScan st.bookings vid s e with
        | some cs => .ok ⟨decide (cs.length = 0), none, cs⟩
        | none => .error .internal
      else .ok ⟨false, some ("Vehicle status is " ++ vstatusName v.status), []⟩

/-- Price computation (bookings.py:188-230 calculate_booking_price):
base_daily_rate times the number of days, after a vehicle lookup and a
defensive non-positive-duration check. -/
def calculate_booking_price (st : Store) (vid : String) (s e : Int) :
    Except Err Int × List Eff :=
  match findVehicle st vid with
  | none => (.error .notFound, [.readVehicle])
  | some v =>
    if e - s ≤ 0 then (.error .validation, [.readVehicle])
    else (.ok (v.baseDailyRate * (e - s)), [.readVehicle])

/-- The booking document written at bookings.py:289-302: owner from the auth
dependency, requested dates serialized with isoformat() (hence stored as ISO
strings), status pending and payment_status unpaid. -/
def newBooking (gid : String) (r : Req) (price : Int) (nid : String) : Booking :=
  ⟨nid, gid, r.vehicleId, .iso r.startD, .iso r.endD, price, .pending, .unpaid⟩

/-- Transactional part of booking creation (bookings.py:306-335
create_booking_transaction): re-query the blocking bookings of the vehicle,
re-apply the strict overlap test, abort with 409 on any conflict (and with the
blanket 500 when a stored date fails to parse), otherwise write the new
booking document and commit. -/
def create_booking_transaction (bs : List Booking) (gid : String) (r : Req)
    (price : Int) (nid : String) : Except Err (List Booking) :=
  match txnScan bs r.vehicleId r.startD r.endD with
  | none => .error .internal
  | some ids =>
    if ids.length = 0 then .ok (bs ++ [newBooking gid r price nid])
    else .error (.conflict ids.length)

/-- Booking-creation endpoint (bookings.py:235-354 create_booking): date
validation before any document-store access, optimistic availability
pre-check, price computation, then the transactional re-check and write.
Returns the endpoint outcome, the resulting store, and the ordered effect
trace. -/
def create_booking (st : Store) (today : Int) (gid : String) (r : Req)
    (nid : String) : Except Err Booking × Store × List Eff :=
  if r.endD ≤ r.startD then (.error .validation, st, [])
  else if r.startD < today then (.error .validation, st, [])
  else
    match check_vehicle_availability_b st r.vehicleId r.startD r.endD with
    | (.error err, effs) => (.error err, st, effs)
    | (.ok (isAvail, cs), effs) =>
      if isAvail = false then (.error (.conflict cs.length), st, effs)
      else
        match calculate_booking_price st r.vehicleId r.startD r.endD with
        | (.error err, effs2) => (.error err, st, effs ++ effs2)
        | (.ok price, effs2) =>
          match create_booking_transaction st.bookings gid r price nid with
          | .error err => (.error err, st, effs ++ effs2 ++ [.readBookings])
          | .ok bs2 =>
            (.ok (newBooking gid r price nid), ⟨st.vehicles, bs2⟩,
              effs ++ effs2 ++ [.readBookings, .writeBooking])

/-- Pre-transaction phase of create_booking (bookings.py:252-283) evaluated
against a snapshot: date validation, optimistic pre-check, price computation;
yields the computed price when every phase passes. -/
def admissionPre (st : Store) (today : Int) (r : Req) : Except Err Int :=
  if r.endD ≤ r.startD then .error .validation
  else if r.startD < today then .error .validation
  else
    match (check_vehicle_availability_b st r.vehicleId r.startD r.endD).1 with
    | .error err => .error err
    | .ok (isAvail, cs) =>
      if isAvail = false then .error (.conflict cs.length)
      else (calculate_booking_price st r.vehicleId r.startD r.endD).1

/-- Two concurrent create_booking calls racing on one snapshot: both run the
pre-transaction phase against the same initial store (the race window between
the optimistic check and the write), then the two transactions execute
serially, first r1 then r2, as under the serialization that the Firestore
transaction in the source is intended to provide. -/
def raceTwo (st : Store) (today : Int) (g1 : String) (r1 : Req) (id1 : String)
    (g2 : String) (r2 : Req) (id2 : String) :
    Except Err Unit × Except Err Unit × Store :=
  match admissionPre st today r1, admissionPre st today r2 with
  | .ok p1, .ok p2 =>
    match create_booking_transaction st.bookings g1 r1 p1 id1 with
    | .ok bs1 =>
      match create_booking_transaction bs1 g2 r2 p2 id2 with
      | .ok bs2 => (.ok (), .ok (), ⟨st.vehicles, bs2⟩)
      | .error e2 => (.ok (), .error e2, ⟨st.vehicles, bs1⟩)
    | .error e1 =>
      match create_booking_transaction st.bookings g2 r2 p2 id2 with
      | .ok bs2 => (.error e1, .ok (), ⟨st.vehicles, bs2⟩)
      | .error e2 => (.error e1, .error e2, st)
  | .ok p1, .error e2 =>
    match create_booking_transaction st.bookings g1 r1 p1 id1 with
    | .ok bs1 => (.ok (), .error e2, ⟨st.vehicles, bs1⟩)
    | .error e1 => (.error e1, .error e2, st)
  | .error e1, .ok p2 =>
    match create_booking_transaction st.bookings g2 r2 p2 id2 with
    | .ok bs2 => (.error e1, .ok (), ⟨st.vehicles, bs2⟩)
    | .error e2 => (.error e1, .error e2, st)
  | .error e1, .error e2 => (.error e1, .error e2, st)

/-- Ownership helper (security.py:195-248 verify_booking_ownership): 404 when
the booking is missing, full access for admin and support roles, and 404
rather than 403 when the caller does not own the booking (the anti-enumeration
choice commented at security.py:233). -/
def verify_booking_ownership (st : Store) (bid : String) (u : User) :
    Except Err Booking :=
  match findBooking st bid with
  | none => .error .notFound
  | some b =>
    if u.role = "admin" ∨ u.role = "support" then .ok b
    else if b.userId = u.uid then .ok b
    else .error .notFound

/-- Booking detail endpoint (bookings.py:511-548 get_booking).  Line 536 calls
verify_booking_ownership(booking_id, current_user), but current_user is not a
defined name anywhere in the module (the handler only binds guest_id), so
evaluating the argument raises NameError for every existing booking; the
blanket except turns it into HTTP 500.  The handler therefore never returns a
booking. -/
def get_booking (st : Store) (gid bid : String) : Except Err Booking :=
  match findBooking st bid with
  | none => .error .notFound
  | some _ => .error .internal

/-- Cancellation endpoint (bookings.py:551-607 cancel_booking).  Line 576
calls verify_booking_ownership(booking_id, current_user) with the same
undefined current_user name, so every request for an existing booking raises
NameError and is answered with HTTP 500; the status check at lines 579-584 and
the update at lines 587-590 are unreachable, and no booking is ever
cancelled. -/
def cancel_booking (st : Store) (gid bid : String) : Except Err Unit × Store :=
  match findBooking st bid with
  | none => (.error .notFound, st)
  | some _ => (.error .internal, st)

/-- In-place update of one booking document (doc_ref.update at
bookings.py:654-658 followed by the re-fetch). -/
def replaceBooking (st : Store) (bid : String) (b2 : Booking) : Store :=
  ⟨st.vehicles, st.bookings.map (fun x => if x.id = bid then b2 else x)⟩

/-- Confirmation endpoint (bookings.py:610-673 confirm_booking): 404 when
missing; the inline authorization at line 635 short-circuits for the owner
but evaluates the undefined current_user.role for anyone else, raising
NameError (HTTP 500; the handler as written intends a 403 there); 400 for a
cancelled booking; an already confirmed booking is returned unchanged;
otherwise status becomes confirmed and payment_status paid. -/
def confirm_booking (st : Store) (gid bid : String) :
    Except Err Booking × Store :=
  match findBooking st bid with
  | none => (.error .notFound, st)
  | some b =>
    if b.userId = gid then
      if b.status = .cancelled then (.error .validation, st)
      else if b.status = .confirmed then (.ok b, st)
      else
        (.ok { b with status := .confirmed, payment := .paid },
          replaceBooking st bid { b with status := .confirmed, payment := .paid })
    else (.error .internal, st)

/-- The stored dates of a booking when both are ISO strings (the representation
create_booking itself writes), as a pair of day numbers. -/
def datesOf (b : Booking) : Option (Int × Int) :=
  match b.startD, b.endD with
  | .iso s, .iso e => some (s, e)
  | _, _ => none

/-- Two bookings are admissible together when, if they concern the same vehicle
and both have a blocking status, their ISO-stored ranges do not strictly
overlap (the relation the in-transaction re-check enforces). -/
def noConflictPair (a b : Booking) : Prop :=
  a.vehicleId = b.vehicleId → blocking a.status = true → blocking b.status = true →
    ∀ sa ea sb eb, datesOf a = some (sa, ea) → datesOf b = some (sb, eb) →
      txnOverlap sa ea sb eb = false

/-- States of the bookings collection reachable through the admission-control
core under a serializable model of the Firestore transaction: the empty
collection, a committed create_booking_transaction, a successful confirmation
(bookings.py:641-658), and the cancellation the cancel endpoint is written to
perform (bookings.py:579-590).  The validation and optimistic pre-check phases
only restrict which transactions run, so omitting them over-approximates the
reachable states; safety properties of this relation cover every behaviour of
the code. -/
inductive Reachable : List Booking → Prop
  | nil : Reachable []
  | create (bs bs2 : List Booking) (g : String) (r : Req) (p : Int) (nid : String)
      (h : Reachable bs)
      (hok : create_booking_transaction bs g r p nid = .ok bs2) : Reachable bs2
  | confirmStep (l r2 : List Booking) (b : Booking) (h : Reachable (l ++ b :: r2))
      (hs : b.status ≠ .cancelled) (hs2 : b.status ≠ .confirmed) :
      Reachable (l ++ ({ b with status := .confirmed, payment := .paid }) :: r2)
  | cancelStep (l r2 : List Booking) (b : Booking) (h : Reachable (l ++ b :: r2))
      (hs : b.status ≠ .cancelled) (hc : b.status ≠ .completed) :
      Reachable (l ++ ({ b with status := .cancelled }) :: r2)

/-- Inductive invariant of the core: no reachable booking carries a status the
core never writes (completed, active), and the collection is pairwise free of
strictly overlapping blocking bookings per vehicle. -/
def CoreInv (bs : List Booking) : Prop :=
  (∀ b ∈ bs, b.status ≠ .completed ∧ b.status ≠ .activeB) ∧
    bs.Pairwise noConflictPair

end Hanco

namespace Hanco

theorem txnOverlap_eq_true_iff (s e ds de : Int) :
    txnOverlap s e ds de = true ↔ ds < e ∧ s < de := by
  by_cases h1 : e ≤ ds <;> by_cases h2 : s ≥ de <;>
    simp [txnOverlap, h1, h2] <;> omega

theorem txnOverlap_eq_false_iff (s e ds de : Int) :
    txnOverlap s e ds de = false ↔ e ≤ ds ∨ de ≤ s := by
  by_cases h1 : e ≤ ds <;> by_cases h2 : s ≥ de <;>
    simp [txnOverlap, h1, h2] <;> omega

theorem txnOverlap_comm (a b c d : Int) : txnOverlap a b c d = txnOverlap c d a b := by
  rw [Bool.eq_iff_iff, txnOverlap_eq_true_iff, txnOverlap_eq_true_iff]
  omega

theorem preOverlap_eq_true_iff (s e bs be : Int) :
    preOverlap s e bs be = true ↔ s ≤ be ∧ bs ≤ e := by
  simp only [preOverlap, Bool.and_eq_true, decide_eq_true_eq, ge_iff_le]

/-- C2: the createBooking pre-check and the standalone availability query use
the identical inclusive overlap test, while the in-transaction re-check uses
the strict test start1 < end2 and start2 < end1; the strict test implies the
inclusive one, and the two disagree exactly on ranges that merely touch at a
boundary, so a booking ending on day X and a request starting on day X is a
conflict at the pre-check and the standalone query but not at the
in-transaction re-check. -/
theorem C2_overlap_tests_disagree (s1 e1 s2 e2 : Int) :
    preOverlap s1 e1 s2 e2 = check_date_overlap s1 e1 s2 e2 ∧
    txnOverlap s1 e1 s2 e2 = (decide (s1 < e2) && decide (s2 < e1)) ∧
    (txnOverlap s1 e1 s2 e2 = true → preOverlap s1 e1 s2 e2 = true) ∧
    (preOverlap s1 e1 s2 e2 = true ∧ txnOverlap s1 e1 s2 e2 = false ↔
      s1 ≤ e2 ∧ s2 ≤ e1 ∧ (e1 = s2 ∨ s1 = e2)) := by
  refine ⟨rfl, ?_, ?_, ?_⟩
  · rw [Bool.eq_iff_iff, txnOverlap_eq_true_iff]
    simp only [Bool.and_eq_true, decide_eq_true_eq]
    omega
  · rw [txnOverlap_eq_true_iff, preOverlap_eq_true_iff]
    omega
  · rw [preOverlap_eq_true_iff, txnOverlap_eq_false_iff]
    omega

theorem C2_overlap_tests_disagree_witness :
    preOverlap 1 4 2 6 = true :=
  (C2_overlap_tests_disagree 1 4 2 6).2.2.1 (by decide)

/-- C2 counterexample: at the quadruple (0, 5, 5, 9), where the existing
booking starts on the day the request ends, the pre-check and the standalone
query report a conflict while the in-transaction re-check does not, so the
three overlap tests do not return the same boolean. -/
theorem C2_counterexample :
    preOverlap 0 5 5 9 = true ∧ check_date_overlap 0 5 5 9 = true ∧
      txnOverlap 0 5 5 9 = false := by decide

/-- C6: a createBooking request whose end date is not after its start date, or
whose start date lies before today, fails with a ValidationError while the
effect trace on the document store is empty and the store is unchanged. -/
theorem C6_validation_before_io (st : Store) (today : Int) (gid : String)
    (r : Req) (nid : String) (h : r.endD ≤ r.startD ∨ r.startD < today) :
    create_booking st today gid r nid = (.error .validation, st, []) := by
  rcases h with h | h
  · simp [create_booking, h]
  · by_cases h2 : r.endD ≤ r.startD
    · simp [create_booking, h2]
    · simp [create_booking, h2, h]

theorem C6_validation_before_io_witness :
    create_booking ⟨[⟨"v1", .available, 10⟩], []⟩ 0 "g1" ⟨"v1", 3, 2⟩ "b1" =
      (.error .validation, ⟨[⟨"v1", .available, 10⟩], []⟩, []) :=
  C6_validation_before_io _ 0 "g1" ⟨"v1", 3, 2⟩ "b1" (Or.inl (by decide))

/-- C4 divergence: for every booking present in the store, cancellation - even
when issued by the owner of a pending booking - evaluates the undefined name
current_user at bookings.py:576, so the endpoint answers with the internal
NameError failure and leaves the store unchanged; no cancellation ever
succeeds and no booking ever reaches status cancelled through this endpoint. -/
theorem C4_cancel_always_raises (st : Store) (gid bid : String) (b : Booking)
    (h : findBooking st bid = some b) :
    cancel_booking st gid bid = (.error .internal, st) := by
  simp [cancel_booking, h]

theorem C4_cancel_always_raises_witness :
    cancel_booking
        ⟨[], [⟨"b1", "g1", "v1", .iso 0, .iso 5, 50, .pending, .unpaid⟩]⟩
        "g1" "b1" =
      (.error .internal,
        ⟨[], [⟨"b1", "g1", "v1", .iso 0, .iso 5, 50, .pending, .unpaid⟩]⟩) :=
  C4_cancel_always_raises _ "g1" "b1"
    ⟨"b1", "g1", "v1", .iso 0, .iso 5, 50, .pending, .unpaid⟩ (by decide)

/-- C10: for a booking of the caller in status active or completed, confirm
succeeds and overwrites the status to confirmed and the payment status to
paid; only status cancelled blocks confirmation, so the endpoint moves a
completed booking backward to confirmed. -/
theorem C10_confirm_moves_completed_back (st : Store) (gid bid : String)
    (b : Booking) (h : findBooking st bid = some b) (howner : b.userId = gid)
    (hs : b.status = .activeB ∨ b.status = .completed) :
    confirm_booking st gid bid =
      (.ok { b with status := .confirmed, payment := .paid },
        replaceBooking st bid { b with status := .confirmed, payment := .paid }) := by
  rcases hs with hs | hs <;> simp [confirm_booking, h, howner, hs]

theorem findBooking_id (st : Store) (bid : String) (b : Booking)
    (h : findBooking st bid = some b) : b.id = bid := by
  unfold findBooking at h
  have := List.find?_some h
  simpa using this

theorem find_replace_list (bid : String) (b2 : Booking) (h2 : b2.id = bid) :
    ∀ bs : List Booking, (bs.find? (fun x => x.id = bid)).isSome →
      (bs.map (fun x => if x.id = bid then b2 else x)).find?
        (fun x => x.id = bid) = some b2 := by
  intro bs
  induction bs with
  | nil => intro h; simp at h
  | cons x rest ih =>
    intro h
    by_cases hx : x.id = bid
    · rw [List.map_cons]
      have hrw : (if x.id = bid then b2 else x) = b2 := by simp [hx]
      rw [hrw, List.find?_cons_of_pos]
      simp [h2]
    · rw [List.map_cons]
      have hrw : (if x.id = bid then b2 else x) = x := by simp [hx]
      rw [hrw, List.find?_cons_of_neg]
      · apply ih
        rw [List.find?_cons_of_neg] at h
        · exact h
        · simp [hx]
      · simp [hx]

theorem findBooking_replace (st : Store) (bid : String) (b b2 : Booking)
    (h : findBooking st bid = some b) (h2 : b2.id = bid) :
    findBooking (replaceBooking st bid b2) bid = some b2 := by
  unfold findBooking replaceBooking
  apply find_replace_list bid b2 h2
  unfold findBooking at h
  simp [h]

/-- C5 (amended): for a booking of the caller that is not cancelled and not
yet confirmed, confirm sets status confirmed and payment_status paid and a
second confirm returns exactly that state without error or further change; a
booking that is already confirmed is returned as it currently is, its
payment_status untouched; confirm on a cancelled booking is rejected. -/
theorem C5_confirm_idempotent :
    (∀ st gid bid b, findBooking st bid = some b → b.userId = gid →
        b.status ≠ .cancelled → b.status ≠ .confirmed →
        confirm_booking st gid bid =
          (.ok { b with status := .confirmed, payment := .paid },
            replaceBooking st bid { b with status := .confirmed, payment := .paid }) ∧
        confirm_booking
            (replaceBooking st bid { b with status := .confirmed, payment := .paid })
            gid bid =
          (.ok { b with status := .confirmed, payment := .paid },
            replaceBooking st bid { b with status := .confirmed, payment := .paid })) ∧
    (∀ st gid bid b, findBooking st bid = some b → b.userId = gid →
        b.status = .confirmed → confirm_booking st gid bid = (.ok b, st)) ∧
    (∀ st gid bid b, findBooking st bid = some b → b.userId = gid →
        b.status = .cancelled → confirm_booking st gid bid = (.error .validation, st)) := by
  refine ⟨?_, ?_, ?_⟩
  · intro st gid bid b h howner hs hs2
    have hid : b.id = bid := findBooking_id st bid b h
    have hfirst : confirm_booking st gid bid =
        (.ok { b with status := .confirmed, payment := .paid },
          replaceBooking st bid { b with status := .confirmed, payment := .paid }) := by
      simp [confirm_booking, h, howner, hs, hs2]
    refine ⟨hfirst, ?_⟩
    have hfind2 : findBooking
        (replaceBooking st bid { b with status := .confirmed, payment := .paid }) bid =
        some { b with status := .confirmed, payment := .paid } :=
      findBooking_replace st bid b _ h hid
    simp only [confirm_booking]
    rw [hfind2]
    simp [howner]
  · intro st gid bid b h howner hs
    simp [confirm_booking, h, howner, hs]
  · intro st gid bid b h howner hs
    simp [confirm_booking, h, howner, hs]

theorem C5_confirm_idempotent_witness :
    confirm_booking
        ⟨[], [⟨"b1", "g1", "v1", .iso 0, .iso 5, 50, .pending, .unpaid⟩]⟩
        "g1" "b1" =
      (.ok ⟨"b1", "g1", "v1", .iso 0, .iso 5, 50, .confirmed, .paid⟩,
        replaceBooking
          ⟨[], [⟨"b1", "g1", "v1", .iso 0, .iso 5, 50, .pending, .unpaid⟩]⟩
          "b1" ⟨"b1", "g1", "v1", .iso 0, .iso 5, 50, .confirmed, .paid⟩) :=
  (C5_confirm_idempotent.1 _ "g1" "b1"
    ⟨"b1", "g1", "v1", .iso 0, .iso 5, 50, .pending, .unpaid⟩
    (by decide) rfl (by decide) (by decide)).1

/-- C5 counterexample: a stored booking with status confirmed and
payment_status unpaid (a state the spec itself admits for cash-on-pickup
flows) is returned unchanged by confirm, so calling confirm twice leaves
payment_status unpaid, not paid as the claim asserts. -/
theorem C5_counterexample :
    confirm_booking
        ⟨[], [⟨"b1", "g1", "v1", .iso 0, .iso 5, 50, .confirmed, .unpaid⟩]⟩
        "g1" "b1" =
      (.ok ⟨"b1", "g1", "v1", .iso 0, .iso 5, 50, .confirmed, .unpaid⟩,
        ⟨[], [⟨"b1", "g1", "v1", .iso 0, .iso 5, 50, .confirmed, .unpaid⟩]⟩) ∧
    PayStatus.unpaid ≠ PayStatus.paid := by
  exact ⟨rfl, by decide⟩

/-- C9 divergence: the security helper verify_booking_ownership does answer
NotFound for a caller who is neither owner nor admin, as the claim states, but
none of the booking endpoints reach it with a defined user: get_booking and
cancel_booking always evaluate the undefined current_user (NameError, HTTP
500) for an existing booking, and confirm_booking does so for every non-owner
caller, so an unauthorized caller observes an internal error, never the
claimed NotFound. -/
theorem C9_unauthorized_lookup (st : Store) (bid gid : String) (u : User)
    (b : Booking) (h : findBooking st bid = some b)
    (hrole : ¬(u.role = "admin" ∨ u.role = "support")) (hown : b.userId ≠ u.uid)
    (hown2 : b.userId ≠ gid) :
    verify_booking_ownership st bid u = .error .notFound ∧
    get_booking st gid bid = .error .internal ∧
    confirm_booking st gid bid = (.error .internal, st) := by
  refine ⟨?_, ?_, ?_⟩
  · simp [verify_booking_ownership, h, hown]
    exact not_or.mp hrole
  · simp [get_booking, h]
  · simp [confirm_booking, h, hown2]

theorem C9_unauthorized_lookup_witness :
    verify_booking_ownership
        ⟨[], [⟨"b1", "alice", "v1", .iso 0, .iso 5, 50, .pending, .unpaid⟩]⟩
        "b1" ⟨"mallory", "consumer"⟩ = .error .notFound ∧
    get_booking
        ⟨[], [⟨"b1", "alice", "v1", .iso 0, .iso 5, 50, .pending, .unpaid⟩]⟩
        "mallory" "b1" = .error .internal ∧
    confirm_booking
        ⟨[], [⟨"b1", "alice", "v1", .iso 0, .iso 5, 50, .pending, .unpaid⟩]⟩
        "mallory" "b1" =
      (.error .internal,
        ⟨[], [⟨"b1", "alice", "v1", .iso 0, .iso 5, 50, .pending, .unpaid⟩]⟩) :=
  C9_unauthorized_lookup _ "b1" "mallory" ⟨"mallory", "consumer"⟩
    ⟨"b1", "alice", "v1", .iso 0, .iso 5, 50, .pending, .unpaid⟩
    (by decide) (by decide) (by decide) (by decide)

theorem C10_confirm_moves_completed_back_witness :
    confirm_booking
        ⟨[], [⟨"b1", "g1", "v1", .iso 0, .iso 5, 50, .completed, .paid⟩]⟩
        "g1" "b1" =
      (.ok ⟨"b1", "g1", "v1", .iso 0, .iso 5, 50, .confirmed, .paid⟩,
        ⟨[], [⟨"b1", "g1", "v1", .iso 0, .iso 5, 50, .confirmed, .paid⟩]⟩) :=
  C10_confirm_moves_completed_back _ "g1" "b1"
    ⟨"b1", "g1", "v1", .iso 0, .iso 5, 50, .completed, .paid⟩ (by decide) rfl
    (Or.inr rfl)

/-- C8: a vehicle in status maintenance or inactive rejects every
booking-creation attempt regardless of the (valid) requested dates, with the
conflict payload carrying count 0 after only the vehicle read, while every
date-conflict rejection of a bookable vehicle carries a count of at least 1 -
so the two rejection reasons are distinct - and the standalone availability
query reports unavailable with a dedicated status reason and an empty
conflict list. -/
theorem C8_vehicle_gate (st : Store) (today : Int) (gid : String) (r : Req)
    (nid : String) (v : Vehicle) (hv : findVehicle st r.vehicleId = some v)
    (hst : v.status = .maintenance ∨ v.status = .inactive)
    (hd1 : r.startD < r.endD) (hd2 : today ≤ r.startD) :
    create_booking st today gid r nid = (.error (.conflict 0), st, [.readVehicle]) ∧
    check_vehicle_availability_v st today r.vehicleId r.startD r.endD =
      .ok ⟨false, some ("Vehicle status is " ++ vstatusName v.status), []⟩ ∧
    (∀ st2 today2 gid2 r2 nid2 v2 n,
      findVehicle st2 r2.vehicleId = some v2 →
      (v2.status = .available ∨ v2.status = .rented) →
      (create_booking st2 today2 gid2 r2 nid2).1 = .error (.conflict n) → 1 ≤ n) := by
  have hgate : ¬(v.status = .available ∨ v.status = .rented) := by
    rcases hst with hst | hst <;> rw [hst] <;> decide
  have hna : ¬(r.endD ≤ r.startD) := by omega
  have hnb : ¬(r.startD < today) := by omega
  refine ⟨?_, ?_, ?_⟩
  · simp [create_booking, check_vehicle_availability_b, hv, hgate, hna, hnb]
  · simp [check_vehicle_availability_v, hv, hgate, hna, hnb]
  · intro st2 today2 gid2 r2 nid2 v2 n hv2 hst2 hres
    by_cases ha : r2.endD ≤ r2.startD
    · simp [create_booking, ha] at hres
    by_cases hb : r2.startD < today2
    · simp [create_booking, ha, hb] at hres
    have hchk : check_vehicle_availability_b st2 r2.vehicleId r2.startD r2.endD =
        (.ok (decide ((preScan st2.bookings r2.vehicleId r2.startD r2.endD).length = 0),
          preScan st2.bookings r2.vehicleId r2.startD r2.endD),
          [.readVehicle, .readBookings]) := by
      simp [check_vehicle_availability_b, hv2, hst2]
    by_cases hc : (preScan st2.bookings r2.vehicleId r2.startD r2.endD).length = 0
    · by_cases hdur : r2.endD - r2.startD ≤ 0
      · omega
      · have hpr : calculate_booking_price st2 r2.vehicleId r2.startD r2.endD =
            (.ok (v2.baseDailyRate * (r2.endD - r2.startD)), [.readVehicle]) := by
          simp [calculate_booking_price, hv2, hdur]
        rcases hscan : txnScan st2.bookings r2.vehicleId r2.startD r2.endD with _ | ids
        · have htx : create_booking_transaction st2.bookings gid2 r2
              (v2.baseDailyRate * (r2.endD - r2.startD)) nid2 = .error .internal := by
            simp [create_booking_transaction, hscan]
          simp [create_booking, ha, hb, hchk, hc, hpr, htx] at hres
        · by_cases hl : ids.length = 0
          · have htx : create_booking_transaction st2.bookings gid2 r2
                (v2.baseDailyRate * (r2.endD - r2.startD)) nid2 =
                .ok (st2.bookings ++
                  [newBooking gid2 r2 (v2.baseDailyRate * (r2.endD - r2.startD)) nid2]) := by
              simp [create_booking_transaction, hscan, hl]
            simp [create_booking, ha, hb, hchk, hc, hpr, htx] at hres
          · have htx : create_booking_transaction st2.bookings gid2 r2
                (v2.baseDailyRate * (r2.endD - r2.startD)) nid2 =
                .error (.conflict ids.length) := by
              simp [create_booking_transaction, hscan, hl]
            simp [create_booking, ha, hb, hchk, hc, hpr, htx] at hres
            omega
    · simp [create_booking, ha, hb, hchk, hc] at hres
      omega

theorem C8_vehicle_gate_witness :
    create_booking ⟨[⟨"v1", .maintenance, 10⟩], []⟩ 0 "g1" ⟨"v1", 1, 4⟩ "b1" =
      (.error (.conflict 0), ⟨[⟨"v1", .maintenance, 10⟩], []⟩, [.readVehicle]) ∧
    check_vehicle_availability_v ⟨[⟨"v1", .maintenance, 10⟩], []⟩ 0 "v1" 1 4 =
      .ok ⟨false, some ("Vehicle status is " ++ vstatusName .maintenance), []⟩ :=
  have h := C8_vehicle_gate ⟨[⟨"v1", .maintenance, 10⟩], []⟩ 0 "g1" ⟨"v1", 1, 4⟩
    "b1" ⟨"v1", .maintenance, 10⟩ (by decide) (Or.inl rfl) (by decide) (by decide)
  ⟨h.1, h.2.1⟩

theorem txnScan_none_iff (vid : String) (s e : Int) :
    ∀ bs : List Booking, txnScan bs vid s e = none ↔
      ∃ b ∈ bs, b.vehicleId = vid ∧ blocking b.status = true ∧
        (txnNorm b.startD = none ∨ txnNorm b.endD = none) := by
  intro bs
  induction bs with
  | nil => simp [txnScan]
  | cons b rest ih =>
    by_cases hm : b.vehicleId = vid ∧ blocking b.status = true
    · rcases hns : txnNorm b.startD with _ | ds
      · constructor
        · intro _
          exact ⟨b, List.mem_cons_self b rest, hm.1, hm.2, Or.inl hns⟩
        · intro _
          simp [txnScan, hm, hns]
      · rcases hne : txnNorm b.endD with _ | de
        · constructor
          · intro _
            exact ⟨b, List.mem_cons_self b rest, hm.1, hm.2, Or.inr hne⟩
          · intro _
            simp [txnScan, hm, hns, hne]
        · rcases hrec : txnScan rest vid s e with _ | ids
          · constructor
            · intro _
              obtain ⟨b2, hb2, hp⟩ := ih.mp hrec
              exact ⟨b2, List.mem_cons_of_mem b hb2, hp⟩
            · intro _
              simp [txnScan, hm, hns, hne, hrec]
          · constructor
            · intro hnone
              exfalso
              simp [txnScan, hm, hns, hne, hrec] at hnone
            · intro hex
              obtain ⟨b2, hb2, hveh, hbl, hnorm⟩ := hex
              rcases List.mem_cons.mp hb2 with hb2 | hb2
              · exfalso
                subst hb2
                rcases hnorm with hnorm | hnorm
                · rw [hns] at hnorm; cases hnorm
                · rw [hne] at hnorm; cases hnorm
              · exfalso
                have hn2 : txnScan rest vid s e = none :=
                  ih.mpr ⟨b2, hb2, hveh, hbl, hnorm⟩
                rw [hrec] at hn2; cases hn2
    · constructor
      · intro hnone
        have hn2 : txnScan rest vid s e = none := by
          simpa [txnScan, hm] using hnone
        obtain ⟨b2, hb2, hp⟩ := ih.mp hn2
        exact ⟨b2, List.mem_cons_of_mem b hb2, hp⟩
      · intro hex
        obtain ⟨b2, hb2, hveh, hbl, hnorm⟩ := hex
        rcases List.mem_cons.mp hb2 with hb2 | hb2
        · exact absurd ⟨(hb2 ▸ hveh), (hb2 ▸ hbl)⟩ hm
        · have hn2 := ih.mpr ⟨b2, hb2, hveh, hbl, hnorm⟩
          simpa [txnScan, hm] using hn2

theorem vehScan_none_iff (vid : String) (s e : Int) :
    ∀ bs : List Booking, vehScan bs vid s e = none ↔
      ∃ b ∈ bs, b.vehicleId = vid ∧ blocking b.status = true ∧
        (vehNorm b.endD = none ∨
          ∃ de, vehNorm b.endD = some de ∧ s ≤ de ∧ vehNorm b.startD = none) := by
  intro bs
  induction bs with
  | nil => simp [vehScan]
  | cons b rest ih =>
    by_cases hm : b.vehicleId = vid ∧ blocking b.status = true
    · rcases hne : vehNorm b.endD with _ | de
      · constructor
        · intro _
          exact ⟨b, List.mem_cons_self b rest, hm.1, hm.2, Or.inl hne⟩
        · intro _
          simp [vehScan, hm, hne]
      · by_cases hsle : s ≤ de
        · rcases hns : vehNorm b.startD with _ | ds
          · constructor
            · intro _
              exact ⟨b, List.mem_cons_self b rest, hm.1, hm.2,
                Or.inr ⟨de, hne, hsle, hns⟩⟩
            · intro _
              simp [vehScan, hm, hne, hsle, hns]
          · rcases hrec : vehScan rest vid s e with _ | cs0
            · constructor
              · intro _
                obtain ⟨b2, hb2, hp⟩ := ih.mp hrec
                exact ⟨b2, List.mem_cons_of_mem b hb2, hp⟩
              · intro _
                simp [vehScan, hm, hne, hsle, hns, hrec]
            · constructor
              · intro hnone
                exfalso
                simp [vehScan, hm, hne, hsle, hns, hrec] at hnone
              · intro hex
                obtain ⟨b2, hb2, hveh, hbl, hnorm⟩ := hex
                rcases List.mem_cons.mp hb2 with hb2 | hb2
                · exfalso
                  subst hb2
                  rcases hnorm with hnorm | ⟨de2, hde2, hsle2, hns2⟩
                  · rw [hne] at hnorm; cases hnorm
                  · rw [hns] at hns2; cases hns2
                · exfalso
                  have hn2 : vehScan rest vid s e = none :=
                    ih.mpr ⟨b2, hb2, hveh, hbl, hnorm⟩
                  rw [hrec] at hn2; cases hn2
        · constructor
          · intro hnone
            have hn2 : vehScan rest vid s e = none := by
              simpa [vehScan, hm, hne, hsle] using hnone
            obtain ⟨b2, hb2, hp⟩ := ih.mp hn2
            exact ⟨b2, List.mem_cons_of_mem b hb2, hp⟩
          · intro hex
            obtain ⟨b2, hb2, hveh, hbl, hnorm⟩ := hex
            rcases List.mem_cons.mp hb2 with hb2 | hb2
            · exfalso
              subst hb2
              rcases hnorm with hnorm | ⟨de2, hde2, hsle2, hns2⟩
              · rw [hne] at hnorm; cases hnorm
              · rw [hne] at hde2
                injection hde2 with hde2
                apply hsle
                rw [hde2]
                exact hsle2
            · have hn2 := ih.mpr ⟨b2, hb2, hveh, hbl, hnorm⟩
              simpa [vehScan, hm, hne, hsle] using hn2
    · constructor
      · intro hnone
        have hn2 : vehScan rest vid s e = none := by
          simpa [vehScan, hm] using hnone
        obtain ⟨b2, hb2, hp⟩ := ih.mp hn2
        exact ⟨b2, List.mem_cons_of_mem b hb2, hp⟩
      · intro hex
        obtain ⟨b2, hb2, hveh, hbl, hnorm⟩ := hex
        rcases List.mem_cons.mp hb2 with hb2 | hb2
        · exact absurd ⟨(hb2 ▸ hveh), (hb2 ▸ hbl)⟩ hm
        · have hn2 := ih.mpr ⟨b2, hb2, hveh, hbl, hnorm⟩
          simpa [vehScan, hm] using hn2

/-- C7 (amended): only the createBooking pre-check normalizes every stored
date representation; the in-transaction re-check raises (instead of
normalizing) exactly when some blocking booking of the vehicle stores a date
as anything other than an ISO string; and the standalone availability query,
whose overlap conjunction is evaluated lazily, raises exactly when some
blocking booking of the vehicle stores its end date as an ISO string, or
stores its start date as an ISO string while the requested start does not
exceed its converted end date (an unconverted ISO start date escapes
unnoticed when the first comparison is already false). -/
theorem C7_normalization_per_site :
    (∀ st vid s e, (check_vehicle_availability_b st vid s e).1 ≠ .error .internal) ∧
    (∀ (bs : List Booking) vid s e, txnScan bs vid s e = none ↔
      ∃ b ∈ bs, b.vehicleId = vid ∧ blocking b.status = true ∧
        (txnNorm b.startD = none ∨ txnNorm b.endD = none)) ∧
    (∀ (bs : List Booking) vid s e, vehScan bs vid s e = none ↔
      ∃ b ∈ bs, b.vehicleId = vid ∧ blocking b.status = true ∧
        (vehNorm b.endD = none ∨
          ∃ de, vehNorm b.endD = some de ∧ s ≤ de ∧ vehNorm b.startD = none)) ∧
    (∀ d : Int, txnNorm (.iso d) = some d ∧ txnNorm (.pydate d) = none ∧
      txnNorm (.pydatetime d) = none ∧ txnNorm (.tstamp d) = none) ∧
    (∀ d : Int, vehNorm (.iso d) = none ∧ vehNorm (.pydate d) = some d ∧
      vehNorm (.pydatetime d) = some d ∧ vehNorm (.tstamp d) = some d) := by
  refine ⟨?_, ?_, ?_, ?_, ?_⟩
  · intro st vid s e
    rcases hfv : findVehicle st vid with _ | v
    · simp [check_vehicle_availability_b, hfv]
    · by_cases hstv : v.status = .available ∨ v.status = .rented <;>
        simp [check_vehicle_availability_b, hfv, hstv]
  · intro bs vid s e
    exact txnScan_none_iff vid s e bs
  · intro bs vid s e
    exact vehScan_none_iff vid s e bs
  · intro d
    exact ⟨rfl, rfl, rfl, rfl⟩
  · intro d
    exact ⟨rfl, rfl, rfl, rfl⟩

theorem C7_normalization_per_site_witness :
    txnScan [⟨"b1", "g1", "v1", .tstamp 10, .tstamp 15, 50, .pending, .unpaid⟩]
        "v1" 20 25 = none :=
  (C7_normalization_per_site.2.1
      [⟨"b1", "g1", "v1", .tstamp 10, .tstamp 15, 50, .pending, .unpaid⟩]
      "v1" 20 25).mpr
    ⟨⟨"b1", "g1", "v1", .tstamp 10, .tstamp 15, 50, .pending, .unpaid⟩,
      List.mem_cons_self _ _, rfl, rfl, Or.inl rfl⟩

/-- C7 counterexample: a blocking booking stored with timestamp dates makes
the in-transaction re-check of createBooking raise (HTTP 500) even for
disjoint requested dates, and a blocking booking stored with ISO-string dates
makes the standalone availability query raise, so those two call sites do not
normalize every stored representation as the claim asserts. -/
theorem C7_counterexample :
    create_booking_transaction
        [⟨"b1", "g1", "v1", .tstamp 10, .tstamp 15, 50, .pending, .unpaid⟩]
        "g2" ⟨"v1", 20, 25⟩ 50 "b2" = .error .internal ∧
    check_vehicle_availability_v
        ⟨[⟨"v1", .available, 10⟩],
          [⟨"b1", "g1", "v1", .iso 10, .iso 15, 50, .pending, .unpaid⟩]⟩
        0 "v1" 20 25 = .error .internal :=
  ⟨rfl, rfl⟩

theorem decide_len_eq (cs : List ConflictRef) :
    decide (cs.length = 0) = decide (cs = []) := by
  rw [decide_eq_decide]
  exact List.length_eq_zero

theorem preScan_eq (vid : String) (s e : Int) :
    ∀ bs : List Booking, preScan bs vid s e =
      (bs.filter (fun b => decide (b.vehicleId = vid ∧ blocking b.status = true ∧
          preOverlap s e (preNorm b.startD) (preNorm b.endD) = true))).map
        (fun b => (⟨b.id, preNorm b.startD, preNorm b.endD⟩ : ConflictRef)) := by
  intro bs
  induction bs with
  | nil => rfl
  | cons b rest ih =>
    by_cases hm : b.vehicleId = vid ∧ blocking b.status = true
    · by_cases ho : preOverlap s e (preNorm b.startD) (preNorm b.endD) = true
      · simp only [preScan, if_pos hm, if_pos ho, List.filter_cons]
        simp [hm.1, hm.2, ho, ih]
      · simp only [preScan, if_pos hm, if_neg ho, List.filter_cons]
        simp [ho, ih]
    · have hcon : ¬(b.vehicleId = vid ∧ blocking b.status = true ∧
          preOverlap s e (preNorm b.startD) (preNorm b.endD) = true) := by
        intro hc
        exact hm ⟨hc.1, hc.2.1⟩
      simp only [preScan, if_neg hm, List.filter_cons]
      simp [hcon, ih]

theorem vehScan_eq (vid : String) (s e : Int) :
    ∀ (bs : List Booking) (cs : List ConflictRef), vehScan bs vid s e = some cs →
      cs = bs.filterMap (fun b =>
        if b.vehicleId = vid ∧ blocking b.status = true then
          match vehNorm b.startD, vehNorm b.endD with
          | some ds, some de =>
            if check_date_overlap s e ds de = true then some ⟨b.id, ds, de⟩
            else none
          | some _, none => none
          | none, _ => none
        else none) := by
  intro bs
  induction bs with
  | nil =>
    intro cs h
    simp [vehScan] at h
    simp [h.symm]
  | cons b rest ih =>
    intro cs h
    by_cases hm : b.vehicleId = vid ∧ blocking b.status = true
    · rcases hne : vehNorm b.endD with _ | de
      · simp [vehScan, hm, hne] at h
      · by_cases hsle : s ≤ de
        · rcases hns : vehNorm b.startD with _ | ds
          · simp [vehScan, hm, hne, hsle, hns] at h
          · rcases hrec : vehScan rest vid s e with _ | cs0
            · simp [vehScan, hm, hne, hsle, hns, hrec] at h
            · have hcs0 := ih cs0 hrec
              by_cases hge : e ≥ ds
              · have hov : check_date_overlap s e ds de = true := by
                  simp [check_date_overlap, hsle, hge]
                have hsome : cs = ⟨b.id, ds, de⟩ :: cs0 := by
                  simpa [vehScan, hm, hne, hsle, hns, hrec, hge] using h.symm
                rw [hsome, List.filterMap_cons]
                simp [hm, hns, hne, hov, hcs0]
              · have hov : ¬(check_date_overlap s e ds de = true) := by
                  simp [check_date_overlap, hge]
                have hsame : cs = cs0 := by
                  simpa [vehScan, hm, hne, hsle, hns, hrec, hge] using h.symm
                rw [hsame, List.filterMap_cons]
                simp [hm, hns, hne, hov, hcs0]
        · have h2 : vehScan rest vid s e = some cs := by
            simpa [vehScan, hm, hne, hsle] using h
          rw [List.filterMap_cons]
          rcases hns : vehNorm b.startD with _ | ds
          · simp [hm, hns, hne, ih cs h2]
          · have hov : ¬(check_date_overlap s e ds de = true) := by
              simp [check_date_overlap, hsle]
            simp [hm, hns, hne, hov, ih cs h2]
    · have h2 : vehScan rest vid s e = some cs := by
        simpa [vehScan, hm] using h
      rw [List.filterMap_cons]
      simp [hm, ih cs h2]

/-- C3: for an existing vehicle in status available or rented and a valid date
range, the availability helper of the booking endpoints returns available
exactly when its conflict list is empty, the conflict list is exactly the
blocking bookings of the vehicle whose normalized ranges overlap the request
inclusively, and the effect trace contains reads only; the standalone
availability endpoint agrees whenever its own date coercion succeeds. -/
theorem C3_availability (st : Store) (vid : String) (s e : Int) (v : Vehicle)
    (hv : findVehicle st vid = some v)
    (hst : v.status = .available ∨ v.status = .rented) (hd : s < e) :
    check_vehicle_availability_b st vid s e =
      (.ok (decide (preScan st.bookings vid s e = []), preScan st.bookings vid s e),
        [.readVehicle, .readBookings]) ∧
    preScan st.bookings vid s e =
      (st.bookings.filter (fun b => decide (b.vehicleId = vid ∧
          blocking b.status = true ∧
          preOverlap s e (preNorm b.startD) (preNorm b.endD) = true))).map
        (fun b => (⟨b.id, preNorm b.startD, preNorm b.endD⟩ : ConflictRef)) ∧
    Eff.writeBooking ∉ [Eff.readVehicle, Eff.readBookings] ∧
    (∀ today cs2, today ≤ s → vehScan st.bookings vid s e = some cs2 →
      check_vehicle_availability_v st today vid s e =
        .ok ⟨decide (cs2 = []), none, cs2⟩ ∧
      cs2 = st.bookings.filterMap (fun b =>
        if b.vehicleId = vid ∧ blocking b.status = true then
          match vehNorm b.startD, vehNorm b.endD with
          | some ds, some de =>
            if check_date_overlap s e ds de = true then some ⟨b.id, ds, de⟩
            else none
          | some _, none => none
          | none, _ => none
        else none)) := by
  refine ⟨?_, preScan_eq vid s e st.bookings, by decide, ?_⟩
  · have h1 : check_vehicle_availability_b st vid s e =
        (.ok (decide ((preScan st.bookings vid s e).length = 0),
          preScan st.bookings vid s e), [.readVehicle, .readBookings]) := by
      simp [check_vehicle_availability_b, hv, hst]
    rw [decide_len_eq] at h1
    exact h1
  · intro today cs2 htoday hscan
    have hna : ¬(e ≤ s) := by omega
    have hnb : ¬(s < today) := by omega
    constructor
    · have h2 : check_vehicle_availability_v st today vid s e =
          .ok ⟨decide (cs2.length = 0), none, cs2⟩ := by
        simp [check_vehicle_availability_v, hv, hst, hna, hnb, hscan]
      rw [decide_len_eq] at h2
      exact h2
    · exact vehScan_eq vid s e st.bookings cs2 hscan

theorem C3_availability_witness :
    check_vehicle_availability_b
        ⟨[⟨"v1", .available, 10⟩],
          [⟨"b1", "g1", "v1", .pydatetime 2, .pydatetime 6, 40, .confirmed, .paid⟩]⟩
        "v1" 5 8 =
      (.ok (decide ((preScan
          [⟨"b1", "g1", "v1", .pydatetime 2, .pydatetime 6, 40, .confirmed, .paid⟩]
          "v1" 5 8) = []),
        preScan
          [⟨"b1", "g1", "v1", .pydatetime 2, .pydatetime 6, 40, .confirmed, .paid⟩]
          "v1" 5 8), [.readVehicle, .readBookings]) :=
  (C3_availability
    ⟨[⟨"v1", .available, 10⟩],
      [⟨"b1", "g1", "v1", .pydatetime 2, .pydatetime 6, 40, .confirmed, .paid⟩]⟩
    "v1" 5 8 ⟨"v1", .available, 10⟩ (by decide) (Or.inl rfl) (by decide)).1

theorem datesOf_some (b : Booking) (x y : Int) (h : datesOf b = some (x, y)) :
    b.startD = .iso x ∧ b.endD = .iso y := by
  rcases hbs : b.startD with d | d | d | d <;> rcases hbe : b.endD with d2 | d2 | d2 | d2 <;>
    simp [datesOf, hbs, hbe] at h
  exact ⟨by rw [h.1], by rw [h.2]⟩

theorem txnScan_clear (vid : String) (s e : Int) :
    ∀ bs : List Booking, txnScan bs vid s e = some [] →
      ∀ b ∈ bs, b.vehicleId = vid → blocking b.status = true →
        ∀ ds de, txnNorm b.startD = some ds → txnNorm b.endD = some de →
          txnOverlap s e ds de = false := by
  intro bs
  induction bs with
  | nil =>
    intro _ b hb
    simp at hb
  | cons b0 rest ih =>
    intro hscan b hb hveh hbl ds de hns hne
    by_cases hm : b0.vehicleId = vid ∧ blocking b0.status = true
    · rcases hns0 : txnNorm b0.startD with _ | ds0
      · simp [txnScan, hm, hns0] at hscan
      · rcases hne0 : txnNorm b0.endD with _ | de0
        · simp [txnScan, hm, hns0, hne0] at hscan
        · rcases hrec : txnScan rest vid s e with _ | ids
          · simp [txnScan, hm, hns0, hne0, hrec] at hscan
          · by_cases hov0 : txnOverlap s e ds0 de0 = true
            · exfalso
              simp [txnScan, hm, hns0, hne0, hrec, hov0] at hscan
            · have hids : ids = [] := by
                simpa [txnScan, hm, hns0, hne0, hrec, hov0] using hscan
              rcases List.mem_cons.mp hb with rfl | hb2
              · rw [hns0] at hns
                rw [hne0] at hne
                injection hns with hns
                injection hne with hne
                rw [← hns, ← hne]
                simpa using hov0
              · rw [hids] at hrec
                exact ih hrec b hb2 hveh hbl ds de hns hne
    · rcases List.mem_cons.mp hb with rfl | hb2
      · exact absurd ⟨hveh, hbl⟩ hm
      · have hscan2 : txnScan rest vid s e = some [] := by
          simpa [txnScan, hm] using hscan
        exact ih hscan2 b hb2 hveh hbl ds de hns hne

theorem create_txn_blocked (bs : List Booking) (g : String) (r : Req) (p : Int)
    (nid : String) (b : Booking) (hb : b ∈ bs) (hveh : b.vehicleId = r.vehicleId)
    (hbl : blocking b.status = true) (ds de : Int) (hsd : b.startD = .iso ds)
    (hed : b.endD = .iso de) (hov : txnOverlap r.startD r.endD ds de = true) :
    ∀ bs2, create_booking_transaction bs g r p nid ≠ .ok bs2 := by
  intro bs2 hok
  rcases hscan : txnScan bs r.vehicleId r.startD r.endD with _ | ids
  · simp [create_booking_transaction, hscan] at hok
  · by_cases hl : ids.length = 0
    · have hids : ids = [] := List.length_eq_zero.mp hl
      rw [hids] at hscan
      have hclear := txnScan_clear r.vehicleId r.startD r.endD bs hscan b hb hveh hbl
        ds de (by rw [hsd]; rfl) (by rw [hed]; rfl)
      rw [hov] at hclear
      cases hclear
    · simp [create_booking_transaction, hscan, hl] at hok

theorem noConflictPair_congr_right (x b b2 : Booking)
    (hveh : b2.vehicleId = b.vehicleId) (hdates : datesOf b2 = datesOf b)
    (hbl : blocking b2.status = true → blocking b.status = true)
    (h : noConflictPair x b) : noConflictPair x b2 := by
  intro hv hbx hbb2 sa ea sb eb hda hdb
  exact h (hv.trans hveh) hbx (hbl hbb2) sa ea sb eb hda (hdates.symm.trans hdb)

theorem noConflictPair_congr_left (x b b2 : Booking)
    (hveh : b2.vehicleId = b.vehicleId) (hdates : datesOf b2 = datesOf b)
    (hbl : blocking b2.status = true → blocking b.status = true)
    (h : noConflictPair b x) : noConflictPair b2 x := by
  intro hv hbb2 hbx sa ea sb eb hda hdb
  exact h (hveh.symm.trans hv) (hbl hbb2) hbx sa ea sb eb
    (hdates.symm.trans hda) hdb

theorem pairwise_replace (l r2 : List Booking) (b b2 : Booking)
    (h : (l ++ b :: r2).Pairwise noConflictPair)
    (hL : ∀ x, noConflictPair x b → noConflictPair x b2)
    (hR : ∀ x, noConflictPair b x → noConflictPair b2 x) :
    (l ++ b2 :: r2).Pairwise noConflictPair := by
  rw [List.pairwise_append] at h ⊢
  obtain ⟨hl, hbr, hcross⟩ := h
  obtain ⟨hb_r2, hr2⟩ := List.pairwise_cons.mp hbr
  refine ⟨hl, List.pairwise_cons.mpr ⟨fun y hy => hR y (hb_r2 y hy), hr2⟩, ?_⟩
  intro a ha y hy
  rcases List.mem_cons.mp hy with rfl | hy2
  · exact hL a (hcross a ha b (List.mem_cons_self _ _))
  · exact hcross a ha y (List.mem_cons_of_mem _ hy2)

theorem reachable_inv : ∀ bs, Reachable bs → CoreInv bs := by
  intro bs h
  induction h with
  | nil => exact ⟨by simp, List.Pairwise.nil⟩
  | create bs bs2 g r p nid h hok ih =>
    rcases hscan : txnScan bs r.vehicleId r.startD r.endD with _ | ids
    · simp [create_booking_transaction, hscan] at hok
    · by_cases hl : ids.length = 0
      · have hids : ids = [] := List.length_eq_zero.mp hl
        rw [hids] at hscan
        have hbs2 : bs2 = bs ++ [newBooking g r p nid] := by
          simpa [create_booking_transaction, hscan] using hok.symm
        subst hbs2
        constructor
        · intro x hx
          rcases List.mem_append.mp hx with hx | hx
          · exact ih.1 x hx
          · have hx2 := List.mem_singleton.mp hx
            subst hx2
            exact ⟨by simp [newBooking], by simp [newBooking]⟩
        · refine List.pairwise_append.mpr ⟨ih.2, List.pairwise_singleton _ _, ?_⟩
          intro a ha y hy
          have hy2 := List.mem_singleton.mp hy
          subst hy2
          intro hveh hba hbnb sa ea sb eb hda hdb
          have hdnb : (sb, eb) = (r.startD, r.endD) := by
            have : datesOf (newBooking g r p nid) = some (r.startD, r.endD) := rfl
            rw [this] at hdb
            exact (Option.some_inj.mp hdb).symm
          have hsb : sb = r.startD := congrArg Prod.fst hdnb
          have heb : eb = r.endD := congrArg Prod.snd hdnb
          have hda2 := datesOf_some a sa ea hda
          have hveh2 : a.vehicleId = r.vehicleId := hveh
          have hclear := txnScan_clear r.vehicleId r.startD r.endD bs hscan a ha
            hveh2 hba sa ea (by rw [hda2.1]; rfl) (by rw [hda2.2]; rfl)
          rw [hsb, heb, txnOverlap_comm]
          exact hclear
      · simp [create_booking_transaction, hscan, hl] at hok
  | confirmStep l r2 b h hs hs2 ih =>
    have hbmem : b ∈ l ++ b :: r2 := List.mem_append.mpr (Or.inr (List.mem_cons_self _ _))
    have hbaux := ih.1 b hbmem
    have hbl : blocking b.status = true := by
      cases hb2 : b.status
      · rfl
      · exact absurd hb2 hs2
      · exact absurd hb2 hbaux.2
      · exact absurd hb2 hs
      · exact absurd hb2 hbaux.1
    constructor
    · intro x hx
      rcases List.mem_append.mp hx with hx | hx
      · exact ih.1 x (List.mem_append.mpr (Or.inl hx))
      · rcases List.mem_cons.mp hx with rfl | hx2
        · exact ⟨by simp, by simp⟩
        · exact ih.1 x (List.mem_append.mpr (Or.inr (List.mem_cons_of_mem _ hx2)))
    · refine pairwise_replace l r2 b _ ih.2 ?_ ?_
      · intro x hx
        exact noConflictPair_congr_right x b _ rfl rfl (fun _ => hbl) hx
      · intro x hx
        exact noConflictPair_congr_left x b _ rfl rfl (fun _ => hbl) hx
  | cancelStep l r2 b h hs hc ih =>
    constructor
    · intro x hx
      rcases List.mem_append.mp hx with hx | hx
      · exact ih.1 x (List.mem_append.mpr (Or.inl hx))
      · rcases List.mem_cons.mp hx with rfl | hx2
        · exact ⟨by simp, by simp⟩
        · exact ih.1 x (List.mem_append.mpr (Or.inr (List.mem_cons_of_mem _ hx2)))
    · refine pairwise_replace l r2 b _ ih.2 ?_ ?_
      · intro x hx
        refine noConflictPair_congr_right x b _ rfl rfl ?_ hx
        intro hcontra
        exact (Bool.false_ne_true hcontra).elim
      · intro x hx
        refine noConflictPair_congr_left x b _ rfl rfl ?_ hx
        intro hcontra
        exact (Bool.false_ne_true hcontra).elim

/-- C1 (amended): under a serializable model of the Firestore transaction, no
store reachable through the admission-control core holds two blocking
bookings of one vehicle whose ranges overlap in the strict sense enforced by
the in-transaction re-check (startA < endB and startB < endA), and of two
concurrent createBooking calls whose requested ranges strictly overlap at
most one succeeds.  The guarantee does not extend to ranges that only touch
at a boundary day, which the Overlap Evaluator of the pre-check and the
standalone query counts as overlapping. -/
theorem C1_no_double_booking :
    (∀ bs, Reachable bs → ∀ i j : Fin bs.length, i ≠ j →
      (bs.get i).vehicleId = (bs.get j).vehicleId →
      blocking (bs.get i).status = true → blocking (bs.get j).status = true →
      ∀ si ei sj ej, datesOf (bs.get i) = some (si, ei) →
        datesOf (bs.get j) = some (sj, ej) → txnOverlap si ei sj ej = false) ∧
    (∀ st today g1 r1 id1 g2 r2 id2,
      r1.vehicleId = r2.vehicleId →
      txnOverlap r1.startD r1.endD r2.startD r2.endD = true →
      ¬((raceTwo st today g1 r1 id1 g2 r2 id2).1 = .ok () ∧
        (raceTwo st today g1 r1 id1 g2 r2 id2).2.1 = .ok ())) := by
  constructor
  · intro bs hreach i j hij hveh hbi hbj si ei sj ej hdi hdj
    have hpw := (reachable_inv bs hreach).2
    rcases lt_trichotomy i j with hlt | heq | hgt
    · exact List.pairwise_iff_get.mp hpw i j hlt hveh hbi hbj si ei sj ej hdi hdj
    · exact absurd heq hij
    · have h2 := List.pairwise_iff_get.mp hpw j i hgt hveh.symm hbj hbi sj ej si ei
        hdj hdi
      rw [txnOverlap_comm]
      exact h2
  · rintro st today g1 r1 id1 g2 r2 id2 hveh hov ⟨h1, h2⟩
    cases hA1 : admissionPre st today r1 with
    | error e1 =>
      cases hA2 : admissionPre st today r2 with
      | error e2 =>
        simp [raceTwo, hA1, hA2] at h1
      | ok p2 =>
        rcases htx2 : create_booking_transaction st.bookings g2 r2 p2 id2 with er2 | bs2 <;>
          simp [raceTwo, hA1, hA2, htx2] at h1
    | ok p1 =>
      cases hA2 : admissionPre st today r2 with
      | error e2 =>
        rcases htx1 : create_booking_transaction st.bookings g1 r1 p1 id1 with er | bs1
        · simp [raceTwo, hA1, hA2, htx1] at h1
        · simp [raceTwo, hA1, hA2, htx1] at h2
      | ok p2 =>
        rcases htx1 : create_booking_transaction st.bookings g1 r1 p1 id1 with er | bs1
        · rcases htx2 : create_booking_transaction st.bookings g2 r2 p2 id2 with er2 | bs2 <;>
            simp [raceTwo, hA1, hA2, htx1, htx2] at h1
        · have hbs1 : bs1 = st.bookings ++ [newBooking g1 r1 p1 id1] := by
            rcases hscan1 : txnScan st.bookings r1.vehicleId r1.startD r1.endD with _ | ids
            · simp [create_booking_transaction, hscan1] at htx1
            · by_cases hl : ids.length = 0
              · simpa [create_booking_transaction, hscan1, hl] using htx1.symm
              · simp [create_booking_transaction, hscan1, hl] at htx1
          have hmem : newBooking g1 r1 p1 id1 ∈ bs1 := by
            rw [hbs1]
            exact List.mem_append.mpr (Or.inr (List.mem_cons_self _ _))
          have hfail := create_txn_blocked bs1 g2 r2 p2 id2 (newBooking g1 r1 p1 id1)
            hmem hveh rfl r1.startD r1.endD rfl rfl
            (by rw [txnOverlap_comm]; exact hov)
          rcases htx2 : create_booking_transaction bs1 g2 r2 p2 id2 with er2 | bs2
          · simp [raceTwo, hA1, hA2, htx1, htx2] at h2
          · exact hfail bs2 htx2

theorem C1_no_double_booking_witness :
    ¬((raceTwo ⟨[⟨"v1", .available, 10⟩], []⟩ 0 "g1" ⟨"v1", 0, 5⟩ "b1"
        "g2" ⟨"v1", 3, 8⟩ "b2").1 = .ok () ∧
      (raceTwo ⟨[⟨"v1", .available, 10⟩], []⟩ 0 "g1" ⟨"v1", 0, 5⟩ "b1"
        "g2" ⟨"v1", 3, 8⟩ "b2").2.1 = .ok ()) :=
  C1_no_double_booking.2 ⟨[⟨"v1", .available, 10⟩], []⟩ 0 "g1" ⟨"v1", 0, 5⟩ "b1"
    "g2" ⟨"v1", 3, 8⟩ "b2" rfl (by decide)

/-- C1 counterexample: two concurrent createBooking calls for vehicle v1 with
ranges (0, 5) and (5, 9) - which the Overlap Evaluator used by the pre-check
and the standalone query classifies as overlapping - both pass the optimistic
pre-check on the empty snapshot and both commit, because the in-transaction
re-check uses the strict overlap test; the resulting reachable store holds two
blocking (pending) bookings of v1 with inclusively overlapping ranges, so
neither conjunct of the claim as stated survives the boundary case. -/
theorem C1_counterexample :
    raceTwo ⟨[⟨"v1", .available, 10⟩], []⟩ 0 "g1" ⟨"v1", 0, 5⟩ "b1"
        "g2" ⟨"v1", 5, 9⟩ "b2" =
      (.ok (), .ok (),
        ⟨[⟨"v1", .available, 10⟩],
          [⟨"b1", "g1", "v1", .iso 0, .iso 5, 50, .pending, .unpaid⟩,
           ⟨"b2", "g2", "v1", .iso 5, .iso 9, 40, .pending, .unpaid⟩]⟩) ∧
    check_date_overlap 0 5 5 9 = true ∧
    blocking BStatus.pending = true :=
  ⟨rfl, rfl, rfl⟩

end Hanco
